import Mathlib

/-!
Shallow embedding of the Video2Note renderer/main-process code
(`src/renderer/src/types/index.ts`, `stores/useProjectStore.ts`,
`pages/SetupPage.tsx`, `pages/EditorPage.tsx`, `pages/ExportPage.tsx`,
`api/client.ts`, `src/main/index.ts`) together with spec-modelled
definitions for the Python backend pipeline (`python_backend/`), which is
not part of the TypeScript sources.  Numbers that are JavaScript floats in
the source are modelled as rationals; fallible operations return `Option`.
-/

namespace Video2Note

/-- `NoteNode` from `src/renderer/src/types/index.ts` (lines 6-14). -/
structure NoteNode where
  id : String
  timestamp : String
  seconds : ℚ
  title : String
  content : String
  imagePath : String
  isEdited : Bool
deriving Repr, DecidableEq

/-- `ProjectState` from `src/renderer/src/types/index.ts` (lines 27-35). -/
structure ProjectState where
  videoPath : Option String
  subtitlePath : Option String
  subtitleContent : Option String
  notes : List NoteNode
  isProcessing : Bool
  processingProgress : ℚ
  error : Option String
deriving Repr, DecidableEq

/-- `AnalyzeResponse` from `src/renderer/src/types/index.ts` (lines 44-48):
`success : boolean`, `data : NoteNode[]`, optional `error : string`. -/
structure AnalyzeResponse where
  success : Bool
  data : List NoteNode
  error : Option String
deriving Repr, DecidableEq

/-- The `outputStyle` enum of `AppSettings`
(`src/renderer/src/types/index.ts`, line 23). -/
inductive OutputStyle where
  | professional
  | blog
  | tutorial
deriving Repr, DecidableEq

/-- The string value each `outputStyle` enum member takes on the wire. -/
def styleString : OutputStyle → String
  | .professional => "professional"
  | .blog => "blog"
  | .tutorial => "tutorial"

/-- Zero-padding to two characters, as `padStart(2, '0')` on the
minute/second components in `formatTime` (`EditorPage.tsx` line 93). -/
def pad2 (n : ℤ) : String :=
  if n < 10 then "0" ++ toString n else toString n

/-- `formatTime` from `src/renderer/src/pages/EditorPage.tsx` (lines 88-96):
`h = Math.floor(seconds / 3600)`, `m = Math.floor((seconds % 3600) / 60)`,
`s = Math.floor(seconds % 60)`; the hour component is printed only when
positive.  JavaScript `%` on the non-negative numbers appearing here is
`a - b * Math.floor(a / b)`. -/
def formatTime (seconds : ℚ) : String :=
  let h : ℤ := Rat.floor (seconds / 3600)
  let rem3600 : ℚ := seconds - 3600 * (Rat.floor (seconds / 3600) : ℚ)
  let m : ℤ := Rat.floor (rem3600 / 60)
  let s : ℤ := Rat.floor (seconds - 60 * (Rat.floor (seconds / 60) : ℚ))
  if h > 0 then
    toString h ++ ":" ++ pad2 m ++ ":" ++ pad2 s
  else
    toString m ++ ":" ++ pad2 s

/-- The model's `Moment` record (language-model output): `seconds`,
`title`, `content`.  The producing code lives in the Python backend
(`python_backend/services/llm_service.py`), which is not among the
TypeScript sources; the shape is the one named by the data model. -/
structure Moment where
  seconds : ℚ
  title : String
  content : String
deriving Repr, DecidableEq

/-- Modelled from the spec: the Key-Moment Extractor's deduplication pass
(`python_backend/services/llm_service.py` is missing from the sources).
Walking the merged, sorted moment list, a candidate closer than the
minimum separation `t` to the last retained moment is dropped (the later
one of the pair); otherwise it is retained and becomes the new reference.
Helper carrying the last retained moment. -/
def dedupGo (t : ℚ) (last : Moment) : List Moment → List Moment
  | [] => []
  | m :: ms =>
    if m.seconds - last.seconds < t then dedupGo t last ms
    else m :: dedupGo t m ms

/-- Modelled from the spec: merge/deduplication entry point of the
Key-Moment Extractor — the first moment is always retained. -/
def dedupMoments (t : ℚ) : List Moment → List Moment
  | [] => []
  | m :: ms => m :: dedupGo t m ms

/-- Decimal digit character, one branch per digit (used by the
spec-modelled note-id renderer). -/
def digitChar10 (d : ℕ) : Char :=
  if d = 0 then '0' else if d = 1 then '1' else if d = 2 then '2'
  else if d = 3 then '3' else if d = 4 then '4' else if d = 5 then '5'
  else if d = 6 then '6' else if d = 7 then '7' else if d = 8 then '8'
  else '9'

/-- Inverse of `digitChar10` on digits. -/
def charVal10 (c : Char) : ℕ :=
  if c = '0' then 0 else if c = '1' then 1 else if c = '2' then 2
  else if c = '3' then 3 else if c = '4' then 4 else if c = '5' then 5
  else if c = '6' then 6 else if c = '7' then 7 else if c = '8' then 8
  else 9

/-- Decimal digit list of a natural number, most significant first,
accumulator style. -/
def digsAux (n : ℕ) (acc : List Char) : List Char :=
  if h : n < 10 then digitChar10 n :: acc
  else digsAux (n / 10) (digitChar10 (n % 10) :: acc)
termination_by n
decreasing_by
  exact Nat.div_lt_self (Nat.pos_of_ne_zero (by omega)) (by omega)

/-- Decimal digit list of a natural number. -/
def digs (n : ℕ) : List Char := digsAux n []

/-- Modelled from the spec: the stable note id, "derived deterministically
from position + seconds" (Note Assembler, missing Python backend) — the
decimal position, a dash, then a rendering of the seconds value. -/
def mkId (i : ℕ) (tail : List Char) : String :=
  ⟨digs i ++ '-' :: tail⟩

/-- Modelled from the spec: the Note Assembler's per-moment step
(`python_backend` missing).  Pairs the moment at position `i` with its
frame result path (empty string when extraction failed), formats the
timestamp with the floor-division formatter, and creates the note with
`isEdited` false. -/
def assembleNote (i : ℕ) (m : Moment) (framePath : String) : NoteNode :=
  { id := mkId i (toString m.seconds).data
    timestamp := formatTime m.seconds
    seconds := m.seconds
    title := m.title
    content := m.content
    imagePath := framePath
    isEdited := false }

/-- Modelled from the spec: Note Assembler over the (moment, frame-path)
pairs starting at position `i`. -/
def noteAssembleFrom (i : ℕ) : List (Moment × String) → List NoteNode
  | [] => []
  | (m, fp) :: rest => assembleNote i m fp :: noteAssembleFrom (i + 1) rest

/-- Modelled from the spec: Note Assembler entry point. -/
def noteAssemble (pairs : List (Moment × String)) : List NoteNode :=
  noteAssembleFrom 0 pairs

/-- The NoteNode-list invariant of the data model: sorted ascending by
`seconds` and pairwise-distinct ids. -/
def NotesInv (l : List NoteNode) : Prop :=
  l.Pairwise (fun a b => a.seconds ≤ b.seconds) ∧ (l.map (fun n => n.id)).Nodup

/-- `setNotes` from `src/renderer/src/stores/useProjectStore.ts` (line 38):
`set({ notes })` replaces the `notes` field and nothing else. -/
def setNotes (s : ProjectState) (notes : List NoteNode) : ProjectState :=
  { s with notes := notes }

/-- The editor's current-note lookup from
`src/renderer/src/pages/EditorPage.tsx` (lines 44-48): the first note whose
`seconds` is at or before the playhead while the following note (when
present) is strictly after it. -/
def currentNote (t : ℚ) : List NoteNode → Option NoteNode
  | [] => none
  | [n] => if n.seconds ≤ t then some n else none
  | n :: next :: rest =>
    if n.seconds ≤ t ∧ t < next.seconds then some n
    else currentNote t (next :: rest)

/-- A `Partial<NoteNode>` update object that does not contain the `id`
field, as passed to `updateNote` by the editor. -/
structure NoteUpdate where
  timestamp : Option String := none
  seconds : Option ℚ := none
  title : Option String := none
  content : Option String := none
  imagePath : Option String := none
  isEdited : Option Bool := none
deriving Repr, DecidableEq

/-- The object-spread `{ ...note, ...updates, isEdited: true }` from
`useProjectStore.ts` line 43: update fields override the note's, and
`isEdited` is forced to `true` last. -/
def mergeNote (n : NoteNode) (u : NoteUpdate) : NoteNode :=
  { id := n.id
    timestamp := u.timestamp.getD n.timestamp
    seconds := u.seconds.getD n.seconds
    title := u.title.getD n.title
    content := u.content.getD n.content
    imagePath := u.imagePath.getD n.imagePath
    isEdited := true }

/-- `updateNote` from `src/renderer/src/stores/useProjectStore.ts`
(lines 40-45): map over the notes, merging the updates into the note whose
id matches. -/
def updateNote (i : String) (u : NoteUpdate) (notes : List NoteNode) :
    List NoteNode :=
  notes.map (fun n => if n.id = i then mergeNote n u else n)

/-- JavaScript `a || dflt` on an optional string: the default replaces a
missing or empty (falsy) string. -/
def jsOrStr (a : Option String) (dflt : String) : String :=
  match a with
  | none => dflt
  | some s => if s = "" then dflt else s

/-- The JSON body posted by `analyzeVideo`
(`src/renderer/src/api/client.ts`, lines 55-62): exactly the six fields
`video_path`, `subtitle_text`, `api_key`, `style`, `base_url`, `model`. -/
structure AnalyzeRequestBody where
  video_path : String
  subtitle_text : String
  api_key : String
  style : String
  base_url : Option String
  model : String
deriving Repr, DecidableEq

/-- `analyzeVideo` from `src/renderer/src/api/client.ts` (lines 47-64):
builds the request body from its per-call parameters, with
`model: params.model || 'gpt-4o-mini'`. -/
def analyzeVideoBody (videoPath subtitleText apiKey stylePrompt : String)
    (baseUrl : Option String) (model : Option String) : AnalyzeRequestBody :=
  { video_path := videoPath
    subtitle_text := subtitleText
    api_key := apiKey
    style := stylePrompt
    base_url := baseUrl
    model := jsOrStr model "gpt-4o-mini" }

/-- The `analyzeVideo` call placed by `handleStart`
(`src/renderer/src/pages/SetupPage.tsx`, lines 142-149): video path and
subtitle content from the project store, `apiKey`/`baseUrl`/`model`/
`outputStyle` from the settings passed in, with `baseUrl || undefined`. -/
def handleStartRequest (videoPath subtitleContent apiKey baseUrl model : String)
    (outputStyle : OutputStyle) : AnalyzeRequestBody :=
  analyzeVideoBody videoPath subtitleContent apiKey (styleString outputStyle)
    (if baseUrl = "" then none else some baseUrl) (some model)

/-- The outcome of `handleStart`'s response handling
(`SetupPage.tsx`, lines 151-156): navigate to the editor with the notes
stored, or show an error message. -/
inductive StartOutcome where
  | navigated (notes : List NoteNode)
  | errorShown (msg : String)
deriving Repr, DecidableEq

/-- `handleStart`'s dispatch on the response (`SetupPage.tsx` lines
151-156): on `success`, `setNotes(result.data)` and navigate; otherwise
show `result.error || '处理失败'` — JavaScript `||`, so a missing *or
empty* error string falls back to the generic message. -/
def handleStartDispatch (r : AnalyzeResponse) : StartOutcome :=
  if r.success then .navigated r.data
  else .errorShown (jsOrStr r.error "处理失败")

/-- The spec's pipeline error taxonomy (§7). -/
inductive ErrorCode where
  | unsupportedFormat
  | malformedModelResponse
  | modelUnavailable
  | frameDecodeFailure
  | pipelineTimeout
  | noUsableContent
deriving Repr, DecidableEq

/-- Modelled from the spec: the structured error object of the pipeline
entry point — an error code and a human-readable message
(`python_backend/app.py` is missing from the sources). -/
structure PipelineError where
  code : ErrorCode
  message : String
deriving Repr, DecidableEq

/-- Modelled from the spec: the pipeline entry point's result — an ordered
NoteNode array or a structured error object; no third shape
(`python_backend/app.py` missing). -/
inductive PipelineResult where
  | ok (notes : List NoteNode)
  | err (e : PipelineError)
deriving Repr, DecidableEq

/-- Modelled from the spec: serialization of a pipeline result into the
`AnalyzeResponse` envelope declared in `types/index.ts` — success carries
the data array, failure carries the human-readable message. -/
def encodeResult : PipelineResult → AnalyzeResponse
  | .ok notes => { success := true, data := notes, error := none }
  | .err e => { success := false, data := [], error := some e.message }

/-- Modelled from the spec: the orchestrator's finalization once the
overall wall-clock timeout has been exceeded (§4.5, `python_backend`
missing) — outstanding work is cancelled and the notes already fully
assembled are returned; only an empty result becomes the fatal
`NoUsableContent` error. -/
def finalizeOnTimeout (assembled : List NoteNode) : PipelineResult :=
  if assembled.isEmpty then
    .err { code := .noUsableContent, message := "no notes could be produced" }
  else
    .ok assembled

/-- The image handling mode of `ExportPage` (line 22): local path or
inline base64. -/
inductive ImageMode where
  | path
  | base64
deriving Repr, DecidableEq

/-- `note.timestamp.replace(/:/g, '')` from `ExportPage.tsx`
(lines 41 and 49): drop every colon. -/
def noteAnchor (ts : String) : String :=
  ⟨ts.data.filter (fun c => c ≠ ':')⟩

/-- The image line `![title](imagePath)` from `ExportPage.tsx`
(lines 56 and 59). -/
def imageLine (n : NoteNode) : String :=
  "![" ++ n.title ++ "](" ++ n.imagePath ++ ")"

/-- The lines one note contributes to the markdown body
(`ExportPage.tsx`, lines 48-68): heading with anchor, timestamp line,
the image line when `note.imagePath` is truthy (with the base64 branch
currently also emitting the local path), the content, and a rule. -/
def noteLines (mode : ImageMode) (n : NoteNode) : List String :=
  ["## " ++ n.title ++ " \x7b#" ++ noteAnchor n.timestamp ++ "\x7d", "",
   "**时间戳**: `" ++ n.timestamp ++ "`", ""]
  ++ (if n.imagePath ≠ "" then
        (match mode with
         | .path => [imageLine n]
         | .base64 => [imageLine n]) ++ [""]
      else [])
  ++ [n.content, "", "---", ""]

/-- One table-of-contents entry (`ExportPage.tsx` line 41). -/
def tocLine (i : ℕ) (n : NoteNode) : String :=
  ⟨digs (i + 1)⟩ ++ ". [" ++ n.title ++ "](#" ++ noteAnchor n.timestamp ++ ")"

/-- The table-of-contents entries, indices starting at 0
(`ExportPage.tsx` lines 40-42). -/
def tocList (i : ℕ) : List NoteNode → List String
  | [] => []
  | n :: rest => tocLine i n :: tocList (i + 1) rest

/-- The video display name (`ExportPage.tsx` line 29):
`videoPath?.split(/[/\\]/).pop()?.replace(/\.[^.]+$/, '') || 'Video
Notes'`.  Splitting a string on `/` and `\`. -/
def splitSeps (p : String) : List String :=
  p.split (fun c => c = '/' ∨ c = '\\')

/-- The regex replace `\.[^.]+$` → empty: strip a final dot-extension when
the part after the last dot is non-empty. -/
def stripExt (s : String) : String :=
  let parts := s.split (fun c => c = '.')
  if 2 ≤ parts.length ∧ parts.getLastD "" ≠ "" then
    String.intercalate "." parts.dropLast
  else s

/-- The `videoName` computation of `generateMarkdown`
(`ExportPage.tsx` line 29). -/
def videoName (videoPath : Option String) : String :=
  match videoPath with
  | none => "Video Notes"
  | some p =>
    let nm := stripExt ((splitSeps p).getLastD "")
    if nm = "" then "Video Notes" else nm

/-- `generateMarkdown` from `src/renderer/src/pages/ExportPage.tsx`
(lines 25-71): title block, table of contents, then the per-note lines,
joined with newlines. -/
def generateMarkdown (notes : List NoteNode) (videoPath : Option String)
    (mode : ImageMode) : String :=
  String.intercalate "\n"
    (["# " ++ videoName videoPath, "", "> 由 Video2Note 自动生成", "",
      "---", "", "## 目录", ""]
     ++ tocList 0 notes
     ++ ["", "---", ""]
     ++ (notes.map (noteLines mode)).flatten)

/-- The result of Electron's `dialog.showOpenDialog`
(`src/main/index.ts`): a `canceled` flag and the selected paths. -/
structure OpenDialogResult where
  canceled : Bool
  filePaths : List String
deriving Repr, DecidableEq

/-- The `select-video-file` IPC handler from `src/main/index.ts`
(lines 123-132): `null` when the dialog was canceled or no file was
chosen, otherwise the first selected path. -/
def selectVideoFile (r : OpenDialogResult) : Option String :=
  if r.canceled || r.filePaths.isEmpty then none
  else r.filePaths.head?

/-- The `select-subtitle-file` IPC handler from `src/main/index.ts`
(lines 135-146): `null` under the same condition, otherwise the first
selected path paired with the file's full UTF-8 content
(`fs.readFileSync(filePath, 'utf-8')`, modelled by the abstract file
system `readFile`). -/
def selectSubtitleFile (readFile : String → String) (r : OpenDialogResult) :
    Option (String × String) :=
  if r.canceled || r.filePaths.isEmpty then none
  else r.filePaths.head?.map (fun p => (p, readFile p))

/-- The health indicator of `SetupPage` (line 31). -/
inductive HealthStatus where
  | idle
  | checking
  | ok
  | error
deriving Repr, DecidableEq

/-- The state touched by `SetupPage`: the project store plus the local
health indicator. -/
structure SetupState where
  project : ProjectState
  healthStatus : HealthStatus
deriving Repr, DecidableEq

/-- `handleCheckHealth` from `src/renderer/src/pages/SetupPage.tsx`
(lines 36-44): awaits the health request and sets only the local
`healthStatus` to `ok` or `error`. -/
def handleCheckHealth (succeeded : Bool) (s : SetupState) : SetupState :=
  { s with healthStatus := if succeeded then .ok else .error }

/-! ### Helper lemmas about the decimal id renderer -/

/-- The decimal value of a digit list. -/
def valDigits (l : List Char) : ℕ :=
  l.foldl (fun a c => 10 * a + charVal10 c) 0

theorem digitChar10_ne_dash (d : ℕ) : digitChar10 d ≠ '-' := by
  unfold digitChar10
  repeat' split
  all_goals decide

theorem charVal_digitChar (d : ℕ) (h : d < 10) :
    charVal10 (digitChar10 d) = d := by
  interval_cases d <;> rfl

theorem digsAux_eq_append (n : ℕ) :
    ∀ acc, digsAux n acc = digs n ++ acc := by
  induction n using Nat.strong_induction_on with
  | _ n ih =>
    intro acc
    conv_lhs => rw [digsAux]
    conv_rhs => rw [digs, digsAux]
    by_cases h : n < 10
    · simp [h]
    · have hd : n / 10 < n :=
        Nat.div_lt_self (Nat.pos_of_ne_zero (by omega)) (by omega)
      simp only [h, dite_false]
      rw [ih _ hd, ih _ hd (digitChar10 (n % 10) :: []), List.append_assoc]
      rfl

theorem digs_no_dash (n : ℕ) : ∀ c ∈ digs n, c ≠ '-' := by
  have general : ∀ m : ℕ, ∀ acc, (∀ c ∈ acc, c ≠ '-') →
      ∀ c ∈ digsAux m acc, c ≠ '-' := by
    intro m
    induction m using Nat.strong_induction_on with
    | _ m ih =>
      intro acc hacc c hc
      by_cases h : m < 10
      · rw [digsAux] at hc
        simp only [h, dite_true] at hc
        rcases List.mem_cons.mp hc with h1 | h1
        · exact h1 ▸ digitChar10_ne_dash m
        · exact hacc c h1
      · have hd : m / 10 < m :=
          Nat.div_lt_self (Nat.pos_of_ne_zero (by omega)) (by omega)
        rw [digsAux] at hc
        simp only [h, dite_false] at hc
        refine ih _ hd _ ?_ c hc
        intro x hx
        rcases List.mem_cons.mp hx with h1 | h1
        · exact h1 ▸ digitChar10_ne_dash (m % 10)
        · exact hacc x h1
  exact general n [] (by simp)

theorem valDigits_digs (n : ℕ) : valDigits (digs n) = n := by
  induction n using Nat.strong_induction_on with
  | _ n ih =>
    by_cases h : n < 10
    · rw [digs, digsAux]
      simp only [h, dite_true]
      simp [valDigits, charVal_digitChar n h]
    · have hd : n / 10 < n :=
        Nat.div_lt_self (Nat.pos_of_ne_zero (by omega)) (by omega)
      rw [digs, digsAux]
      simp only [h, dite_false]
      rw [digsAux_eq_append]
      unfold valDigits
      rw [List.foldl_append]
      have hv := ih _ hd
      unfold valDigits at hv
      rw [hv]
      simp only [List.foldl_cons, List.foldl_nil,
        charVal_digitChar (n % 10) (Nat.mod_lt _ (by omega))]
      omega

theorem digs_inj {a b : ℕ} (h : digs a = digs b) : a = b := by
  have hv := congrArg valDigits h
  rwa [valDigits_digs, valDigits_digs] at hv

theorem append_dash_eq :
    ∀ {xs ys a b : List Char}, (∀ c ∈ xs, c ≠ '-') → (∀ c ∈ ys, c ≠ '-') →
      xs ++ '-' :: a = ys ++ '-' :: b → xs = ys := by
  intro xs
  induction xs with
  | nil =>
    intro ys a b _ hy h
    cases ys with
    | nil => rfl
    | cons y ys' =>
      simp only [List.nil_append, List.cons_append, List.cons.injEq] at h
      exact absurd h.1.symm (hy y (List.mem_cons_self y ys'))
  | cons x xs' ih =>
    intro ys a b hx hy h
    cases ys with
    | nil =>
      simp only [List.cons_append, List.nil_append, List.cons.injEq] at h
      exact absurd h.1 (hx x (List.mem_cons_self x xs'))
    | cons y ys' =>
      simp only [List.cons_append, List.cons.injEq] at h
      have htl := ih (fun c hc => hx c (List.mem_cons_of_mem x hc))
        (fun c hc => hy c (List.mem_cons_of_mem y hc)) h.2
      rw [h.1, htl]

theorem mkId_inj {i j : ℕ} {a b : List Char} (h : mkId i a = mkId j b) :
    i = j := by
  have hd : digs i ++ '-' :: a = digs j ++ '-' :: b := congrArg String.data h
  exact digs_inj (append_dash_eq (digs_no_dash i) (digs_no_dash j) hd)

/-! ### Helper lemmas about the spec-modelled Note Assembler -/

theorem id_mem_from :
    ∀ (pairs : List (Moment × String)) (k : ℕ) (n : NoteNode),
      n ∈ noteAssembleFrom k pairs → ∃ j t, k ≤ j ∧ n.id = mkId j t := by
  intro pairs
  induction pairs with
  | nil => intro k n hn; simp [noteAssembleFrom] at hn
  | cons p rest ih =>
    intro k n hn
    obtain ⟨m, fp⟩ := p
    rcases List.mem_cons.mp hn with h | h
    · exact ⟨k, (toString m.seconds).data, le_refl k, by rw [h]; rfl⟩
    · obtain ⟨j, t, hj, ht⟩ := ih (k + 1) n h
      exact ⟨j, t, by omega, ht⟩

theorem nodup_ids_from :
    ∀ (pairs : List (Moment × String)) (k : ℕ),
      ((noteAssembleFrom k pairs).map (fun n => n.id)).Nodup := by
  intro pairs
  induction pairs with
  | nil => intro k; simp [noteAssembleFrom]
  | cons p rest ih =>
    intro k
    obtain ⟨m, fp⟩ := p
    rw [noteAssembleFrom, List.map_cons, List.nodup_cons]
    refine ⟨?_, ih (k + 1)⟩
    intro hmem
    obtain ⟨n, hn, hid⟩ := List.mem_map.mp hmem
    obtain ⟨j, t, hj, ht⟩ := id_mem_from rest (k + 1) n hn
    have : j = k := mkId_inj (by rw [← ht, hid]; rfl)
    omega

theorem seconds_from :
    ∀ (pairs : List (Moment × String)) (k : ℕ),
      (noteAssembleFrom k pairs).map (fun n => n.seconds)
        = pairs.map (fun p => p.1.seconds) := by
  intro pairs
  induction pairs with
  | nil => intro k; simp [noteAssembleFrom]
  | cons p rest ih =>
    intro k
    obtain ⟨m, fp⟩ := p
    rw [noteAssembleFrom, List.map_cons, List.map_cons, ih (k + 1)]
    rfl

theorem timestamp_from :
    ∀ (pairs : List (Moment × String)) (k : ℕ) (n : NoteNode),
      n ∈ noteAssembleFrom k pairs → n.timestamp = formatTime n.seconds := by
  intro pairs
  induction pairs with
  | nil => intro k n hn; simp [noteAssembleFrom] at hn
  | cons p rest ih =>
    intro k n hn
    obtain ⟨m, fp⟩ := p
    rcases List.mem_cons.mp hn with h | h
    · rw [h]; rfl
    · exact ih (k + 1) n h

theorem currentNote_mem :
    ∀ (notes : List NoteNode) (t : ℚ) (n : NoteNode),
      currentNote t notes = some n → n ∈ notes := by
  intro notes
  induction notes with
  | nil => intro t n h; simp [currentNote] at h
  | cons hd tl ih =>
    intro t n h
    cases tl with
    | nil =>
      rw [currentNote] at h
      split at h
      · exact (Option.some_inj.mp h) ▸ List.mem_cons_self hd []
      · exact absurd h (by simp)
    | cons nx rest =>
      rw [currentNote] at h
      split at h
      · exact (Option.some_inj.mp h) ▸ List.mem_cons_self hd (nx :: rest)
      · exact List.mem_cons_of_mem hd (ih t n h)

/-! ### Helper lemmas about the spec-modelled deduplication -/

theorem dedupGo_sublist (t : ℚ) :
    ∀ (ms : List Moment) (last : Moment), (dedupGo t last ms).Sublist ms := by
  intro ms
  induction ms with
  | nil => intro last; simp [dedupGo]
  | cons m rest ih =>
    intro last
    rw [dedupGo]
    split
    · exact (ih last).trans (List.sublist_cons_self m rest)
    · exact (ih m).cons₂ m

theorem dedupGo_bound (t : ℚ) (ht : 0 ≤ t) :
    ∀ (ms : List Moment) (last : Moment),
      (∀ x ∈ dedupGo t last ms, t ≤ x.seconds - last.seconds) ∧
      (dedupGo t last ms).Pairwise (fun a b => t ≤ b.seconds - a.seconds) := by
  intro ms
  induction ms with
  | nil => intro last; simp [dedupGo]
  | cons m rest ih =>
    intro last
    rw [dedupGo]
    split
    · exact ih last
    · rename_i hkeep
      have hge : t ≤ m.seconds - last.seconds := by linarith [not_lt.mp hkeep]
      constructor
      · intro x hx
        rcases List.mem_cons.mp hx with h | h
        · rw [h]; exact hge
        · have := (ih m).1 x h
          linarith
      · exact List.pairwise_cons.mpr ⟨(ih m).1, (ih m).2⟩


end Video2Note

namespace Video2Note

/-! ## Claim theorems -/

/-- C1: every call to the pipeline entry point yields either an ordered
NoteNode array (success with the data array) or a structured error object
carrying an error code and a human-readable message — no third shape —
and `handleStart` dispatches the success shape to navigation with the
array and the error shape to the shown message, the program's generic
fallback replacing an empty message (JavaScript `||` on
`result.error`). -/
theorem analyze_two_shapes (p : PipelineResult) :
    (∃ notes, p = .ok notes ∧
       handleStartDispatch (encodeResult p) = .navigated notes) ∨
    (∃ c msg, p = .err ⟨c, msg⟩ ∧
       handleStartDispatch (encodeResult p)
         = .errorShown (if msg = "" then "处理失败" else msg)) := by
  cases p with
  | ok notes => exact .inl ⟨notes, rfl, rfl⟩
  | err e => exact .inr ⟨e.code, e.message, by cases e; exact ⟨rfl, rfl⟩⟩

/-- C2: the assembled NoteNode list is sorted ascending by `seconds` with
pairwise-distinct ids whenever the moment list is sorted; `setNotes`
stores the given list unchanged (hence preserves the invariant), and the
editor's current-note lookup only returns members of the list. -/
theorem notes_invariant :
    (∀ pairs : List (Moment × String),
       (pairs.map (fun p => p.1.seconds)).Pairwise (· ≤ ·) →
       NotesInv (noteAssemble pairs)) ∧
    (∀ s l, (setNotes s l).notes = l ∧
       (NotesInv l → NotesInv (setNotes s l).notes)) ∧
    (∀ notes (t : ℚ) n, currentNote t notes = some n → n ∈ notes) := by
  refine ⟨?_, fun s l => ⟨rfl, fun h => h⟩, currentNote_mem⟩
  intro pairs hsorted
  constructor
  · have h1 : ((noteAssembleFrom 0 pairs).map (fun n => n.seconds)).Pairwise
        (· ≤ ·) := by
      rw [seconds_from]; exact hsorted
    exact List.pairwise_map.mp h1
  · exact nodup_ids_from pairs 0

/-- C2 witness: a concrete sorted two-moment list assembles into a list
satisfying the invariant, `setNotes` stores it, and the lookup at playhead
20 returns a member. -/
theorem notes_invariant_witness :
    NotesInv (noteAssemble [(⟨10, "a", "b"⟩, "p1"), (⟨20, "c", "d"⟩, "")]) :=
  notes_invariant.1 [(⟨10, "a", "b"⟩, "p1"), (⟨20, "c", "d"⟩, "")]
    (by simp; norm_num)

/-- C3: a run whose wall-clock timeout fires with at least one fully
assembled note returns the assembled notes as a successful partial
result, a non-empty NoteNode array, not an error. -/
theorem timeout_partial (assembled : List NoteNode) (h : assembled ≠ []) :
    finalizeOnTimeout assembled = .ok assembled ∧ assembled ≠ [] := by
  refine ⟨?_, h⟩
  unfold finalizeOnTimeout
  simp [List.isEmpty_iff, h]

/-- C3 witness: a singleton assembled list is returned as a successful
partial result. -/
theorem timeout_partial_witness :
    finalizeOnTimeout [⟨"0-10", "0:10", 10, "t", "c", "", false⟩]
        = .ok [⟨"0-10", "0:10", 10, "t", "c", "", false⟩] ∧
      ([⟨"0-10", "0:10", 10, "t", "c", "", false⟩] : List NoteNode) ≠ [] :=
  timeout_partial [⟨"0-10", "0:10", 10, "t", "c", "", false⟩]
    (List.cons_ne_nil _ _)

/-- C4: every assembled note's timestamp string is the floor-division
formatting of its `seconds` (hours omitted when zero), and the formatter
sends 0 to "0:00", 65 to "1:05", and 3661 to "1:01:01". -/
theorem timestamp_format :
    (∀ pairs n, n ∈ noteAssemble pairs → n.timestamp = formatTime n.seconds) ∧
    formatTime 0 = "0:00" ∧ formatTime 65 = "1:05" ∧
    formatTime 3661 = "1:01:01" := by
  refine ⟨?_, ?_, ?_, ?_⟩
  · intro pairs n hn
    exact timestamp_from pairs 0 n hn
  · with_unfolding_all decide
  · with_unfolding_all decide
  · with_unfolding_all decide

/-- C4 witness: the note assembled from a 65-second moment carries the
formatted timestamp of its own `seconds`. -/
theorem timestamp_format_witness :
    (assembleNote 0 ⟨65, "t", "c"⟩ "").timestamp
      = formatTime (assembleNote 0 ⟨65, "t", "c"⟩ "").seconds :=
  timestamp_format.1 [(⟨65, "t", "c"⟩, "")] (assembleNote 0 ⟨65, "t", "c"⟩ "")
    (by simp [noteAssemble, noteAssembleFrom])

/-- C5: after deduplication with a non-negative minimum separation `t`,
the retained moments are a subsequence of the input and no two of them
lie within `t` of each other; with a 5-second threshold, moments at 10.0
and 10.8 collapse to the single earlier moment at 10.0. -/
theorem dedup_separation (t : ℚ) (ht : 0 ≤ t) (l : List Moment) :
    (dedupMoments t l).Sublist l ∧
    (dedupMoments t l).Pairwise (fun a b => t ≤ b.seconds - a.seconds) ∧
    dedupMoments 5 [⟨10, "x", "y"⟩, ⟨54 / 5, "z", "w"⟩]
      = [⟨10, "x", "y"⟩] := by
  refine ⟨?_, ?_, by with_unfolding_all decide⟩
  · cases l with
    | nil => simp [dedupMoments]
    | cons m ms => exact (dedupGo_sublist t ms m).cons₂ m
  · cases l with
    | nil => simp [dedupMoments]
    | cons m ms =>
      rw [dedupMoments]
      exact List.pairwise_cons.mpr
        ⟨(dedupGo_bound t ht ms m).1, (dedupGo_bound t ht ms m).2⟩

/-- C5 witness: at threshold 5 the concrete pair (10.0, 10.8) collapses to
the earlier moment. -/
theorem dedup_separation_witness :
    dedupMoments 5 [⟨10, "x", "y"⟩, ⟨54 / 5, "z", "w"⟩]
      = [⟨10, "x", "y"⟩] :=
  (dedup_separation 5 (by norm_num) []).2.2

/-- C6: the request `handleStart` sends carries exactly the six fields of
the body record, with `style` always one of the three enum strings and
each value taken from the per-call arguments (`model` falling back to the
documented default only when the passed value is empty, `base_url`
omitted only when empty). -/
theorem request_fields (vp sc ak bu md : String) (st : OutputStyle) :
    (handleStartRequest vp sc ak bu md st).video_path = vp ∧
    (handleStartRequest vp sc ak bu md st).subtitle_text = sc ∧
    (handleStartRequest vp sc ak bu md st).api_key = ak ∧
    (handleStartRequest vp sc ak bu md st).style = styleString st ∧
    (styleString st = "professional" ∨ styleString st = "blog" ∨
      styleString st = "tutorial") ∧
    (md ≠ "" → (handleStartRequest vp sc ak bu md st).model = md) ∧
    (md = "" → (handleStartRequest vp sc ak bu md st).model = "gpt-4o-mini") ∧
    (bu ≠ "" → (handleStartRequest vp sc ak bu md st).base_url = some bu) ∧
    (bu = "" → (handleStartRequest vp sc ak bu md st).base_url = none) := by
  refine ⟨rfl, rfl, rfl, rfl, ?_, ?_, ?_, ?_, ?_⟩
  · cases st
    · exact .inl rfl
    · exact .inr (.inl rfl)
    · exact .inr (.inr rfl)
  · intro h; simp [handleStartRequest, analyzeVideoBody, jsOrStr, h]
  · intro h; simp [handleStartRequest, analyzeVideoBody, jsOrStr, h]
  · intro h; simp [handleStartRequest, analyzeVideoBody, h]
  · intro h; simp [handleStartRequest, analyzeVideoBody, h]

/-- C6 witness: a concrete call with non-empty model and base url produces
the body with exactly those values and the blog style string. -/
theorem request_fields_witness :
    (handleStartRequest "v.mp4" "subs" "key" "http://b" "m1" .blog).model
        = "m1" ∧
      (handleStartRequest "v.mp4" "subs" "key" "http://b" "m1" .blog).base_url
        = some "http://b" ∧
      (handleStartRequest "v.mp4" "subs" "key" "http://b" "m1" .blog).style
        = styleString .blog :=
  ⟨(request_fields "v.mp4" "subs" "key" "http://b" "m1" .blog).2.2.2.2.2.1
      (by decide),
    (request_fields "v.mp4" "subs" "key" "http://b" "m1" .blog).2.2.2.2.2.2.2.1
      (by decide),
    (request_fields "v.mp4" "subs" "key" "http://b" "m1" .blog).2.2.2.1⟩

/-- C7: the health check is stateless with respect to the project state —
every field of the project state is unchanged and only the local
`healthStatus` indicator moves to `ok` or `error`. -/
theorem health_check_stateless (b : Bool) (s : SetupState) :
    (handleCheckHealth b s).project.videoPath = s.project.videoPath ∧
    (handleCheckHealth b s).project.subtitlePath = s.project.subtitlePath ∧
    (handleCheckHealth b s).project.subtitleContent
      = s.project.subtitleContent ∧
    (handleCheckHealth b s).project.notes = s.project.notes ∧
    (handleCheckHealth b s).project.isProcessing = s.project.isProcessing ∧
    (handleCheckHealth b s).project.processingProgress
      = s.project.processingProgress ∧
    (handleCheckHealth b s).project.error = s.project.error ∧
    (handleCheckHealth b s).healthStatus
      = (if b then .ok else .error) := by
  exact ⟨rfl, rfl, rfl, rfl, rfl, rfl, rfl, rfl⟩

end Video2Note

namespace Video2Note

/-- C8: `updateNote` changes at most the note whose id matches — merging
the given fields, keeping its id and setting `isEdited` to true — keeps
length and relative order (pointwise characterization), and is the
identity when no note carries the given id. -/
theorem update_note_frame (i : String) (u : NoteUpdate)
    (notes : List NoteNode) :
    (updateNote i u notes).length = notes.length ∧
    (∀ (k : ℕ) (n : NoteNode), notes[k]? = some n →
       (updateNote i u notes)[k]?
         = some (if n.id = i then mergeNote n u else n)) ∧
    ((∀ n ∈ notes, n.id ≠ i) → updateNote i u notes = notes) ∧
    (∀ n, (mergeNote n u).id = n.id ∧ (mergeNote n u).isEdited = true) := by
  refine ⟨by simp [updateNote], ?_, ?_, fun n => ⟨rfl, rfl⟩⟩
  · intro k n h
    simp [updateNote, List.getElem?_map, h]
  · intro h
    unfold updateNote
    conv_rhs => rw [← List.map_id notes]
    refine List.map_congr_left ?_
    intro n hn
    simp [h n hn]

/-- C8 witness: updating the title of the matching note in a concrete
two-note list changes only that entry and flips its `isEdited`. -/
theorem update_note_frame_witness :
    (updateNote "a" { title := some "new" }
        [⟨"a", "0:00", 0, "t", "c", "", false⟩,
         ⟨"b", "0:05", 5, "t2", "c2", "", false⟩])[1]?
      = some (if (⟨"b", "0:05", 5, "t2", "c2", "", false⟩ : NoteNode).id = "a"
          then mergeNote ⟨"b", "0:05", 5, "t2", "c2", "", false⟩
            { title := some "new" }
          else ⟨"b", "0:05", 5, "t2", "c2", "", false⟩) :=
  (update_note_frame "a" { title := some "new" }
      [⟨"a", "0:00", 0, "t", "c", "", false⟩,
       ⟨"b", "0:05", 5, "t2", "c2", "", false⟩]).2.1 1
    ⟨"b", "0:05", 5, "t2", "c2", "", false⟩ rfl

/-- C9: `generateMarkdown` in base64 image mode produces character-for-
character the same string as path mode for every notes list and video
path; a note contributes lines whose count reflects an image line exactly
when its `imagePath` is non-empty, and the image line is present whenever
`imagePath` is non-empty. -/
theorem export_modes_equal :
    (∀ notes vp, generateMarkdown notes vp .base64
        = generateMarkdown notes vp .path) ∧
    (∀ mode n, (noteLines mode n).length
        = if n.imagePath = "" then 8 else 10) ∧
    (∀ mode n, n.imagePath ≠ "" → imageLine n ∈ noteLines mode n) := by
  have hnl : ∀ n, noteLines .base64 n = noteLines .path n := by
    intro n
    unfold noteLines
    by_cases h : n.imagePath = "" <;> simp [h]
  refine ⟨?_, ?_, ?_⟩
  · intro notes vp
    unfold generateMarkdown
    rw [List.map_congr_left fun n _ => hnl n]
  · intro mode n
    unfold noteLines
    by_cases h : n.imagePath = "" <;> cases mode <;> simp [h]
  · intro mode n h
    unfold noteLines
    cases mode <;> simp [h]

/-- C9 witness: a concrete note with a non-empty image path contributes
its image line. -/
theorem export_modes_equal_witness :
    imageLine ⟨"a", "0:00", 0, "t", "c", "/tmp/f.png", false⟩
      ∈ noteLines .path ⟨"a", "0:00", 0, "t", "c", "/tmp/f.png", false⟩ :=
  export_modes_equal.2.2 .path ⟨"a", "0:00", 0, "t", "c", "/tmp/f.png", false⟩
    (by decide)

/-- C10: the file-selection IPC handlers signal absence with null exactly
when the dialog is canceled or no file is chosen; otherwise the video
handler returns the first selected path and the subtitle handler returns
that path paired with the file's full content. -/
theorem ipc_select_null (r : OpenDialogResult) (f : String → String) :
    (selectVideoFile r = none ↔ (r.canceled = true ∨ r.filePaths = [])) ∧
    (selectSubtitleFile f r = none ↔
      (r.canceled = true ∨ r.filePaths = [])) ∧
    (∀ p ps, r.canceled = false → r.filePaths = p :: ps →
       selectVideoFile r = some p ∧
       selectSubtitleFile f r = some (p, f p)) := by
  obtain ⟨c, fps⟩ := r
  refine ⟨?_, ?_, ?_⟩
  · cases c <;> cases fps <;> simp [selectVideoFile]
  · cases c <;> cases fps <;> simp [selectSubtitleFile]
  · intro p ps hc hf
    subst hc
    cases hf
    constructor <;> simp [selectVideoFile, selectSubtitleFile]

/-- C10 witness: an uncanceled dialog with one selected path yields the
path, and the subtitle handler yields the path with its read content. -/
theorem ipc_select_null_witness :
    selectVideoFile ⟨false, ["/v/a.srt"]⟩ = some "/v/a.srt" ∧
      selectSubtitleFile (fun p => p ++ "!") ⟨false, ["/v/a.srt"]⟩
        = some ("/v/a.srt", "/v/a.srt" ++ "!") :=
  (ipc_select_null ⟨false, ["/v/a.srt"]⟩ (fun p => p ++ "!")).2.2
    "/v/a.srt" [] rfl rfl

end Video2Note
